import Mathlib

/-
Verification of the Marine-Insights dashboard (frontend/Marine-Insights/src):
a shallow embedding of the HTTP client helper (utils/api.ts), the mock data
generators (utils/mock.ts), and the Fisheries / Biodiversity view handlers
(pages/Fisheries.tsx, pages/Biodiversity.tsx), together with theorems settling
the specification claims about them.

Modelling conventions:
- JS numbers are embedded as exact rationals (ℚ) where the code is closed-form
  rational arithmetic, and as real numbers (ℝ) where the code uses Math.exp /
  Math.sin.  Math.random() draws are universally quantified functions
  u : ℕ → ℚ (or ℝ) with 0 ≤ u i < 1, indexed by call order.
- Number.prototype.toFixed(2) is embedded as exact round-half-up to a grid of
  hundredths (the float-representation quirks of toFixed are out of scope).
- Strings manipulated structurally by the URL layer are embedded as List Char.
-/

namespace MarineInsights

/-- two-decimal fixed-point value of q, in hundredths: the integer printed by
JavaScript q.toFixed(2) (round half up; q nonnegative in all uses here). -/
def toFixedHundredths (q : ℚ) : ℤ := ⌊q * 100 + 1/2⌋

/-- zero-padded two-digit decimal string for n < 100. -/
def pad2 (n : ℕ) : String := if n < 10 then ("0") ++ toString n else toString n

/-- the string produced by JavaScript q.toFixed(2) for nonnegative q. -/
def toFixed2 (q : ℚ) : String :=
  let k := (toFixedHundredths q).toNat
  toString (k / 100) ++ (".") ++ pad2 (k % 100)

/-! ## utils/mock.ts : mockForecastInteractive (lines 5-57) -/

/-- the two plotted series of mockForecastInteractive; layout/styling fields of
the returned plot object are not modelled.  x labels are the year numbers
passed through String(), embedded via toString. -/
structure ForecastPlot where
  actualX : List String
  actualY : List ℚ
  forecastX : List String
  forecastY : List ℚ

/-- yearsFull of mockForecastInteractive: 2000..2030. -/
def yearsFull : List ℕ := (List.range 31).map (fun i => 2000 + i)

/-- actual-series years of mockForecastInteractive: 2000..2020. -/
def actualYears : List ℕ := (List.range 21).map (fun i => 2000 + i)

/-- mockForecastInteractive, parametrised by the Math.random() draws u
(one per actual-series point, in loop order). -/
def mockForecastInteractive (u : ℕ → ℚ) : ForecastPlot :=
  { actualX := actualYears.map (fun y => toString y)
  , actualY := (List.range 21).map (fun i =>
      let t : ℚ := ((2000 + i : ℕ) : ℚ) - 2000
      let trueVal : ℚ := 55 + 0.6 * t + 0.22 * t * t
      let noise : ℚ := (u i - 0.5) * 2.0
      max 50 (trueVal + noise))
  , forecastX := yearsFull.map (fun y => toString y)
  , forecastY := yearsFull.map (fun y =>
      let t : ℚ := ((y : ℕ) : ℚ) - 2000
      55 + 0.6 * t + 0.22 * t * t) }

/-! ## utils/mock.ts : mockFishClassification (lines 182-190) -/

/-- the fixed rotation list of mockFishClassification. -/
def classificationOrder : List String := ["Neon Tetra", "Zebra Danio", "Clownfish"]

/-- mockFishClassification.  The module-global call counter
__mockClassificationCallCount is threaded explicitly: count is its value on
entry, the returned ℕ its value after the call; u is the Math.random() draw. -/
def mockFishClassification (count : ℕ) (u : ℚ) : (String × String) × ℕ :=
  ((classificationOrder.getD (count % classificationOrder.length) (""),
    toFixed2 (u * (87 - 75) + 75) ++ ("%")), count + 1)

/-! ## helper lemmas -/

theorem getD_range_map {α : Type} (f : ℕ → α) (d : α) (n i : ℕ) (h : i < n) :
    (((List.range n).map f).getD i d) = f i := by
  rw [List.getD_eq_getElem?_getD, List.getElem?_map, List.getElem?_range h]
  rfl

theorem forecastY_getD (u : ℕ → ℚ) (i : ℕ) (h : i < 31) :
    (mockForecastInteractive u).forecastY.getD i 0
      = 55 + 0.6 * (i : ℚ) + 0.22 * (i : ℚ) ^ 2 := by
  have hmap : (mockForecastInteractive u).forecastY
      = (List.range 31).map (fun i : ℕ => 55 + 0.6 * (i : ℚ) + 0.22 * (i : ℚ) ^ 2) := by
    simp only [mockForecastInteractive, yearsFull, List.map_map]
    apply List.map_congr_left
    intro a _
    simp only [Function.comp_apply]
    push_cast
    ring
  rw [hmap, getD_range_map _ _ _ _ h]

theorem actualY_getD (u : ℕ → ℚ) (i : ℕ) (h : i < 21) :
    (mockForecastInteractive u).actualY.getD i 0
      = max 50 ((55 + 0.6 * (i : ℚ) + 0.22 * (i : ℚ) ^ 2) + (u i - 0.5) * 2.0) := by
  have hmap : (mockForecastInteractive u).actualY
      = (List.range 21).map (fun i : ℕ =>
          max 50 ((55 + 0.6 * (i : ℚ) + 0.22 * (i : ℚ) ^ 2) + (u i - 0.5) * 2.0)) := by
    simp only [mockForecastInteractive]
    apply List.map_congr_left
    intro a _
    push_cast
    ring_nf
  rw [hmap, getD_range_map _ _ _ _ h]

/-- C5: the forecast mock generator computes the noise-free curve
f(year) = 55 + 0.6·t + 0.22·t² with t = year − 2000, so f(2000) = 55 and
f(2030) = 271; its actual series has exactly 21 points (years 2000..2020),
each equal to max(50, f(year) + jitter) with jitter in [−1, 1]; its forecast
series has exactly 31 points (years 2000..2030). -/
theorem claim_C5 (u : ℕ → ℚ) (hu : ∀ i, 0 ≤ u i ∧ u i < 1) :
    (mockForecastInteractive u).actualY.length = 21 ∧
    (mockForecastInteractive u).actualX = (List.range 21).map (fun i => toString (2000 + i)) ∧
    (mockForecastInteractive u).forecastY.length = 31 ∧
    (mockForecastInteractive u).forecastX = (List.range 31).map (fun i => toString (2000 + i)) ∧
    (∀ i, i < 31 → (mockForecastInteractive u).forecastY.getD i 0
        = 55 + 0.6 * (i : ℚ) + 0.22 * (i : ℚ) ^ 2) ∧
    (mockForecastInteractive u).forecastY.getD 0 0 = 55 ∧
    (mockForecastInteractive u).forecastY.getD 30 0 = 271 ∧
    (∀ i, i < 21 → ∃ j : ℚ, -1 ≤ j ∧ j ≤ 1 ∧
      (mockForecastInteractive u).actualY.getD i 0
        = max 50 ((55 + 0.6 * (i : ℚ) + 0.22 * (i : ℚ) ^ 2) + j)) := by
  refine ⟨by simp [mockForecastInteractive], ?_, by simp [mockForecastInteractive, yearsFull], ?_,
    fun i h => forecastY_getD u i h, ?_, ?_, ?_⟩
  · simp [mockForecastInteractive, actualYears, List.map_map]
  · simp [mockForecastInteractive, yearsFull, List.map_map]
  · rw [forecastY_getD u 0 (by norm_num)]; norm_num
  · rw [forecastY_getD u 30 (by norm_num)]; norm_num
  · intro i h
    refine ⟨(u i - 0.5) * 2.0, ?_, ?_, actualY_getD u i h⟩
    · have := (hu i).1; linarith
    · have := (hu i).2; linarith

/-- C5 witness: concrete evaluation of the theorem at the constant draw 1/2. -/
theorem claim_C5_witness :
    (mockForecastInteractive (fun _ => 1/2)).forecastY.getD 30 0 = 271 := by
  have h := claim_C5 (fun _ => 1/2) (fun i => ⟨by norm_num, by norm_num⟩)
  exact h.2.2.2.2.2.2.1

/-- C8: the classification mock rotates round-robin through its fixed 3-item
species list: for counter state n it returns the species at index n mod 3 and
increments the counter by one; three consecutive calls return the three
species in rotating order and the fourth call returns the first species
again; the returned confidence is a 2-decimal percentage string whose
numeric value lies in [75, 87]. -/
theorem claim_C8 (n : ℕ) (u : ℚ) (hu0 : 0 ≤ u) (hu1 : u < 1) :
    (mockFishClassification n u).1.1 = classificationOrder.getD (n % 3) ("") ∧
    (mockFishClassification n u).2 = n + 1 ∧
    [(mockFishClassification n u).1.1, (mockFishClassification (n+1) u).1.1,
      (mockFishClassification (n+2) u).1.1] = classificationOrder.rotate (n % 3) ∧
    (mockFishClassification (n+3) u).1.1 = (mockFishClassification n u).1.1 ∧
    (∃ k : ℤ, toFixedHundredths (u * (87 - 75) + 75) = k ∧
      (mockFishClassification n u).1.2
        = toString (k.toNat / 100) ++ (".") ++ pad2 (k.toNat % 100) ++ ("%") ∧
      (75 : ℚ) ≤ (k : ℚ) / 100 ∧ (k : ℚ) / 100 ≤ 87) := by
  have species_eq : ∀ m : ℕ,
      (mockFishClassification m u).1.1 = classificationOrder.getD (m % 3) ("") := fun _ => rfl
  refine ⟨rfl, rfl, ?_, ?_, ?_⟩
  · have h3 : n % 3 = 0 ∨ n % 3 = 1 ∨ n % 3 = 2 := by omega
    rcases h3 with h | h | h
    · rw [species_eq n, species_eq (n+1), species_eq (n+2), h,
        show (n+1) % 3 = 1 from by omega, show (n+2) % 3 = 2 from by omega]
      rfl
    · rw [species_eq n, species_eq (n+1), species_eq (n+2), h,
        show (n+1) % 3 = 2 from by omega, show (n+2) % 3 = 0 from by omega]
      rfl
    · rw [species_eq n, species_eq (n+1), species_eq (n+2), h,
        show (n+1) % 3 = 0 from by omega, show (n+2) % 3 = 1 from by omega]
      rfl
  · rw [species_eq (n+3), species_eq n, show (n+3) % 3 = n % 3 from by omega]
  · refine ⟨toFixedHundredths (u * (87 - 75) + 75), rfl, rfl, ?_, ?_⟩
    · have hk : (7500 : ℤ) ≤ toFixedHundredths (u * (87 - 75) + 75) := by
        rw [toFixedHundredths, Int.le_floor]
        push_cast
        nlinarith
      have hkq : (7500 : ℚ) ≤ ((toFixedHundredths (u * (87 - 75) + 75) : ℤ) : ℚ) := by
        exact_mod_cast hk
      rw [le_div_iff₀ (by norm_num : (0 : ℚ) < 100)]
      linarith
    · have hk : toFixedHundredths (u * (87 - 75) + 75) < 8701 := by
        rw [toFixedHundredths, Int.floor_lt]
        push_cast
        nlinarith
      have hkq : ((toFixedHundredths (u * (87 - 75) + 75) : ℤ) : ℚ) ≤ 8700 := by
        exact_mod_cast Int.lt_add_one_iff.mp hk
      rw [div_le_iff₀ (by norm_num : (0 : ℚ) < 100)]
      linarith

/-- C8 witness: concrete evaluation of the theorem at counter 4, draw 1/2. -/
theorem claim_C8_witness :
    (mockFishClassification 4 (1/2)).1.1 = ("Zebra Danio") := by
  have h := claim_C8 4 (1/2) (by norm_num) (by norm_num)
  rw [h.1]
  rfl

/-! ## utils/api.ts : response handling of getJson / postJson / postFormData
(lines 20-50 of the api module)

The network is abstracted: each function is given the FetchResponse the
fetch call resolved with (status plus the JSON-parse outcome of the body:
some parsedValue, or none when res.json() rejects).  Transport-level
rejections, where no response exists at all, are outside the model.
The response type is a type parameter since the helpers are generic in T. -/

abbrev Str := List Char

structure FetchResponse (α : Type) where
  status : ℕ
  jsonBody : Option α

/-- the failures a helper can raise: the thrown Error carrying the response
status (non-ok branch), or the res.json() rejection (which carries none). -/
inductive HttpFailure where
  | statusFailure (path : Str) (status : ℕ)
  | jsonFailure
deriving DecidableEq

/-- res.ok per the Fetch standard: status in the inclusive range 200..299. -/
def respOk {α : Type} (r : FetchResponse α) : Bool :=
  200 ≤ r.status && r.status ≤ 299

/-- getJson: throw Error with the status if !res.ok, else return res.json(). -/
def getJson {α : Type} (path : Str) (r : FetchResponse α) : Except HttpFailure α :=
  if respOk r then
    match r.jsonBody with
    | some j => Except.ok j
    | none => Except.error HttpFailure.jsonFailure
  else Except.error (HttpFailure.statusFailure path r.status)

/-- postJson: identical response handling; the JSON body sent is irrelevant
to it and passed through as an opaque argument. -/
def postJson {α β : Type} (path : Str) (body : β) (r : FetchResponse α) :
    Except HttpFailure α :=
  if respOk r then
    match r.jsonBody with
    | some j => Except.ok j
    | none => Except.error HttpFailure.jsonFailure
  else Except.error (HttpFailure.statusFailure path r.status)

/-- postFormData: identical response handling; the multipart body is opaque. -/
def postFormData {α γ : Type} (path : Str) (formData : γ) (r : FetchResponse α) :
    Except HttpFailure α :=
  if respOk r then
    match r.jsonBody with
    | some j => Except.ok j
    | none => Except.error HttpFailure.jsonFailure
  else Except.error (HttpFailure.statusFailure path r.status)

/-- does a raised failure carry the response status (claim C4's notion)? -/
def carriesStatus : HttpFailure → ℕ → Prop
  | HttpFailure.statusFailure _ s, t => s = t
  | HttpFailure.jsonFailure, _ => False

/-- claim C4 exactly as stated: each helper raises a failure carrying the
response status iff the status is not in [200,299) or the body is not
parseable JSON; on any status in that range with parseable body it returns
the parsed value. -/
def ClaimC4Stated : Prop :=
  ∀ (path : Str) (body fd : ℕ) (r : FetchResponse ℕ),
    ((∃ e, getJson path r = Except.error e ∧ carriesStatus e r.status) ↔
      (r.status < 200 ∨ 299 ≤ r.status ∨ r.jsonBody = none)) ∧
    (∀ j, 200 ≤ r.status → r.status < 299 → r.jsonBody = some j →
      getJson path r = Except.ok j) ∧
    ((∃ e, postJson path body r = Except.error e ∧ carriesStatus e r.status) ↔
      (r.status < 200 ∨ 299 ≤ r.status ∨ r.jsonBody = none)) ∧
    (∀ j, 200 ≤ r.status → r.status < 299 → r.jsonBody = some j →
      postJson path body r = Except.ok j) ∧
    ((∃ e, postFormData path fd r = Except.error e ∧ carriesStatus e r.status) ↔
      (r.status < 200 ∨ 299 ≤ r.status ∨ r.jsonBody = none)) ∧
    (∀ j, 200 ≤ r.status → r.status < 299 → r.jsonBody = some j →
      postFormData path fd r = Except.ok j)

/-- C4 counterexample: at status 299 with a parseable body, the helpers
return the parsed value (res.ok treats 299 as success), while the claim's
interval [200,299) excludes 299 and demands a failure. -/
theorem claim_C4_counterexample : ¬ ClaimC4Stated := by
  intro h
  have h1 := (h [] 0 0 ⟨299, some 0⟩).1
  have h2 : (⟨299, some 0⟩ : FetchResponse ℕ).status < 200 ∨
      299 ≤ (⟨299, some 0⟩ : FetchResponse ℕ).status ∨
      (⟨299, some 0⟩ : FetchResponse ℕ).jsonBody = none := by
    right; left; rfl
  obtain ⟨e, he, _⟩ := h1.mpr h2
  rw [show getJson ([] : Str) (⟨299, some 0⟩ : FetchResponse ℕ) = Except.ok 0 from rfl] at he
  exact Except.noConfusion he

theorem getJson_spec {α : Type} (path : Str) (r : FetchResponse α) :
    ((∃ e, getJson path r = Except.error e) ↔
        (r.status < 200 ∨ 300 ≤ r.status ∨ r.jsonBody = none)) ∧
    ((r.status < 200 ∨ 300 ≤ r.status) →
        getJson path r = Except.error (HttpFailure.statusFailure path r.status)) ∧
    (∀ e, getJson path r = Except.error e →
        (carriesStatus e r.status ↔ (r.status < 200 ∨ 300 ≤ r.status))) ∧
    (∀ j, 200 ≤ r.status → r.status < 300 → r.jsonBody = some j →
        getJson path r = Except.ok j) := by
  by_cases hok : respOk r = true
  · have hrange : 200 ≤ r.status ∧ r.status ≤ 299 := by
      simpa [respOk, Bool.and_eq_true, decide_eq_true_eq] using hok
    cases hb : r.jsonBody with
    | some j =>
      have hval : getJson path r = Except.ok j := by simp [getJson, hok, hb]
      refine ⟨?_, ?_, ?_, ?_⟩
      · rw [hval]
        constructor
        · rintro ⟨e, he⟩; exact Except.noConfusion he
        · rintro (h | h | h) <;> first | omega | exact Option.noConfusion h
      · intro h; omega
      · intro e he; rw [hval] at he; exact Except.noConfusion he
      · intro j' _ _ hj'
        rw [hval, Option.some_inj.mp hj']
    | none =>
      have hval : getJson path r = Except.error HttpFailure.jsonFailure := by
        simp [getJson, hok, hb]
      refine ⟨?_, ?_, ?_, ?_⟩
      · rw [hval]; exact ⟨fun _ => Or.inr (Or.inr rfl), fun _ => ⟨_, rfl⟩⟩
      · intro h; omega
      · intro e he
        rw [hval] at he
        cases he
        exact ⟨fun hf => False.elim hf, fun h => by omega⟩
      · intro j' _ _ hj'; exact Option.noConfusion hj'
  · have hrange : r.status < 200 ∨ 300 ≤ r.status := by
      have : ¬ (200 ≤ r.status ∧ r.status ≤ 299) := by
        intro hc
        exact hok (by simp [respOk, Bool.and_eq_true, decide_eq_true_eq, hc.1, hc.2])
      omega
    have hval : getJson path r = Except.error (HttpFailure.statusFailure path r.status) := by
      simp [getJson, hok]
    refine ⟨?_, fun _ => hval, ?_, ?_⟩
    · rw [hval]
      exact ⟨fun _ => by omega, fun _ => ⟨_, rfl⟩⟩
    · intro e he
      rw [hval] at he
      cases he
      exact ⟨fun _ => hrange, fun _ => rfl⟩
    · intro j' h1 h2 _; omega

/-- C4 amended: each of getJson, postJson, postFormData raises a failure iff
the response status is not in [200,300) (the Fetch res.ok range) or the body
is not parseable JSON; the failure carries the response status exactly when
the status was the problem (the parse failure carries no status); on any
status in [200,300) with a parseable JSON body the parsed value is
returned. -/
theorem claim_C4_amended {α β γ : Type} (path : Str) (body : β) (fd : γ)
    (r : FetchResponse α) :
    (((∃ e, getJson path r = Except.error e) ↔
        (r.status < 200 ∨ 300 ≤ r.status ∨ r.jsonBody = none)) ∧
     ((r.status < 200 ∨ 300 ≤ r.status) →
        getJson path r = Except.error (HttpFailure.statusFailure path r.status)) ∧
     (∀ e, getJson path r = Except.error e →
        (carriesStatus e r.status ↔ (r.status < 200 ∨ 300 ≤ r.status))) ∧
     (∀ j, 200 ≤ r.status → r.status < 300 → r.jsonBody = some j →
        getJson path r = Except.ok j)) ∧
    postJson path body r = getJson path r ∧
    postFormData path fd r = getJson path r := by
  exact ⟨getJson_spec path r, rfl, rfl⟩

/-- C4 witness: concrete evaluation at a 404 response with unparseable body. -/
theorem claim_C4_witness :
    getJson ([] : Str) (⟨404, (none : Option ℕ)⟩ : FetchResponse ℕ)
      = Except.error (HttpFailure.statusFailure [] 404) :=
  (claim_C4_amended ([] : Str) (0 : ℕ) (0 : ℕ)
    (⟨404, (none : Option ℕ)⟩ : FetchResponse ℕ)).1.2.1 (by norm_num)

/-! ## utils/api.ts : buildUrl (lines 8-18)

buildUrl(path, params?) constructs
new URL(path.startsWith('http') ? path : API_BASE_URL + path), then for each
Object.entries(params) pair with value !== undefined && value !== null
performs url.searchParams.set(key, String(value)), and returns the URL.

Embedding notes:
- strings are List Char (Str);
- the WHATWG URL object is embedded as its pre-query part plus its decoded
  query entry list; percent-encoding and host normalisation performed by
  url.toString() are out of scope (the claims quantify over decoded entries);
- the URL constructor throws on a string with no scheme; this is the
  Option in parseUrl (a "://" occurrence not at position 0);
- JS object values of QueryParams type are JsValue; Object keys are unique,
  which theorems take as a Nodup hypothesis; number values are embedded as
  integers (String() conversion of non-integral floats is out of scope). -/

inductive JsValue where
  | vstr (s : Str)
  | vnum (n : ℤ)
  | vbool (b : Bool)
  | vnull
  | vundef
deriving DecidableEq

/-- JavaScript String(value) for the primitive values above. -/
def jsToString : JsValue → Str
  | JsValue.vstr s => s
  | JsValue.vnum n => (toString n).toList
  | JsValue.vbool b => if b then ("true").toList else ("false").toList
  | JsValue.vnull => ("null").toList
  | JsValue.vundef => ("undefined").toList

/-- default base address (VITE_API_BASE unset). -/
def API_BASE_URL : Str := ("http://127.0.0.1:8000").toList

/-- does s begin with sep? (structural String.startsWith). -/
def startsSeq : Str → Str → Bool
  | [], _ => true
  | _ :: _, [] => false
  | c :: cs, d :: ds => c == d && startsSeq cs ds

/-- does sep occur contiguously anywhere in s? -/
def containsSeq (sep : Str) : Str → Bool
  | [] => sep.isEmpty
  | d :: ds => startsSeq sep (d :: ds) || containsSeq sep ds

def schemeSep : Str := ("://").toList

/-- a URL string the URL constructor accepts: it has a scheme separator,
not at position 0 (nonempty scheme). -/
def hasScheme (s : Str) : Bool := containsSeq schemeSep s && !(startsSeq schemeSep s)

/-- the part of the URL string before its first question mark. -/
def stripQuery (s : Str) : Str := s.takeWhile (fun c => !(c == '?'))

/-- the part after the first question mark (empty when there is none). -/
def queryPart (s : Str) : Str := (s.dropWhile (fun c => !(c == '?'))).drop 1

/-- decoded query entries of a query string: segments split on ampersands,
each nonempty segment giving key = text before the first equals sign,
value = the rest. -/
def parseQueryStr (q : Str) : List (Str × Str) :=
  (q.splitOn '&').filterMap (fun seg =>
    if seg.isEmpty then none
    else
      match seg.splitOn '=' with
      | [] => none
      | k :: vs => some (k, List.intercalate ['='] vs))

/-- the URL object: pre-query part and decoded searchParams entries. -/
structure UrlObj where
  withoutQuery : Str
  query : List (Str × Str)
deriving DecidableEq

/-- new URL(s): none models the constructor throwing. -/
def parseUrl (s : Str) : Option UrlObj :=
  if hasScheme s then
    some { withoutQuery := stripQuery s, query := parseQueryStr (queryPart s) }
  else none

/-- URLSearchParams.set: replace the first entry with the key in place,
removing any further entries with it, else append. -/
def setParam : List (Str × Str) → Str → Str → List (Str × Str)
  | [], k, v => [(k, v)]
  | (k0, v0) :: rest, k, v =>
    if k0 = k then (k, v) :: rest.filter (fun p => !(p.1 == k))
    else (k0, v0) :: setParam rest k v

/-- the guard value !== undefined && value !== null. -/
def keepParam : JsValue → Bool
  | JsValue.vundef => false
  | JsValue.vnull => false
  | _ => true

/-- the Object.entries(params).forEach loop of buildUrl. -/
def applyParams (q : List (Str × Str)) (ps : List (Str × JsValue)) :
    List (Str × Str) :=
  ps.foldl (fun acc kv =>
    if keepParam kv.2 then setParam acc kv.1 (jsToString kv.2) else acc) q

/-- buildUrl(path, params?). -/
def buildUrl (path : Str) (params : Option (List (Str × JsValue))) : Option UrlObj :=
  (parseUrl (if startsSeq ("http").toList path then path else API_BASE_URL ++ path)).map
    (fun url0 =>
      match params with
      | none => url0
      | some ps => { url0 with query := applyParams url0.query ps })

/-- url.toString(): pre-query part, then the serialised query if nonempty. -/
def urlToString (u : UrlObj) : Str :=
  u.withoutQuery ++
    (if u.query.isEmpty then []
     else '?' :: List.intercalate ['&'] (u.query.map (fun kv => kv.1 ++ '=' :: kv.2)))

/-- the entries of params with non-null, non-undefined values, as query
entries (key, String(value)). -/
def filteredEntries (ps : List (Str × JsValue)) : List (Str × Str) :=
  (ps.filter (fun kv => keepParam kv.2)).map (fun kv => (kv.1, jsToString kv.2))

/-- claim C3 exactly as stated: for all (path, params), the result's query
contains exactly the non-null/non-undefined entries of params, each key
exactly once, and path is resolved against the base unless absolute. -/
def ClaimC3Stated : Prop :=
  ∀ (path : Str) (ps : List (Str × JsValue)), (ps.map Prod.fst).Nodup →
    ∃ u, buildUrl path (some ps) = some u ∧
      (∀ e, e ∈ u.query ↔ e ∈ filteredEntries ps) ∧
      (u.query.map Prod.fst).Nodup ∧
      u.withoutQuery =
        (if startsSeq ("http").toList path then stripQuery path
         else API_BASE_URL ++ stripQuery path)

/-- C3 counterexample: a path that carries its own query string.  For
path = "/p?a=1" with empty params, the produced URL's query contains the
entry a=1, which is not an entry of params, so the query does not consist
exactly of the entries of params. -/
theorem claim_C3_counterexample : ¬ ClaimC3Stated := by
  intro h
  obtain ⟨u, hu, hq, -, -⟩ := h ("/p?a=1").toList [] (by simp)
  have hu' : u = { withoutQuery := ("http://127.0.0.1:8000/p").toList
                 , query := [(("a").toList, ("1").toList)] } := by
    have hb : buildUrl ("/p?a=1").toList (some []) =
        some { withoutQuery := ("http://127.0.0.1:8000/p").toList
             , query := [(("a").toList, ("1").toList)] } := by decide
    rw [hb] at hu
    exact (Option.some_inj.mp hu).symm
  have hmem : (("a").toList, ("1").toList) ∈ u.query := by
    rw [hu']; exact List.mem_singleton.mpr rfl
  have : (("a").toList, ("1").toList) ∈ filteredEntries [] := (hq _).mp hmem
  simp [filteredEntries] at this

theorem startsSeq_append (sep s t : Str) (h : startsSeq sep s = true) :
    startsSeq sep (s ++ t) = true := by
  induction sep generalizing s with
  | nil => rfl
  | cons c cs ih =>
    cases s with
    | nil => exact absurd h (by simp [startsSeq])
    | cons d ds =>
      simp only [startsSeq, Bool.and_eq_true] at h ⊢
      exact ⟨h.1, ih ds h.2⟩

theorem containsSeq_nil_sep (t : Str) : containsSeq [] t = true := by
  cases t <;> simp [containsSeq, startsSeq]

theorem containsSeq_append_left (sep s t : Str) (h : containsSeq sep s = true) :
    containsSeq sep (s ++ t) = true := by
  induction s with
  | nil =>
    simp only [containsSeq, List.isEmpty_iff] at h
    subst h
    exact containsSeq_nil_sep t
  | cons d ds ih =>
    simp only [containsSeq, Bool.or_eq_true] at h ⊢
    rcases h with h | h
    · exact Or.inl (startsSeq_append sep (d :: ds) t h)
    · exact Or.inr (ih h)

theorem hasScheme_base_append (path : Str) :
    hasScheme (API_BASE_URL ++ path) = true := by
  rw [hasScheme, Bool.and_eq_true]
  refine ⟨containsSeq_append_left _ _ _ (by decide), ?_⟩
  rw [show startsSeq schemeSep (API_BASE_URL ++ path) = false from rfl]
  rfl

theorem parseUrl_noQuery (s : Str) (hs : hasScheme s = true)
    (h : ∀ c ∈ s, (c == '?') = false) :
    parseUrl s = some { withoutQuery := s, query := [] } := by
  rw [parseUrl, if_pos hs]
  have h1 : stripQuery s = s := by
    rw [stripQuery, List.takeWhile_eq_self_iff]
    intro c hc
    simp [h c hc]
  have h2 : queryPart s = [] := by
    have hdw : s.dropWhile (fun c => !(c == '?')) = [] := by
      rw [List.dropWhile_eq_nil_iff]
      intro c hc
      simp [h c hc]
    rw [queryPart, hdw]
    rfl
  rw [h1, h2]
  rfl

theorem setParam_append (q : List (Str × Str)) (k v : Str)
    (hk : ∀ e ∈ q, e.1 ≠ k) :
    setParam q k v = q ++ [(k, v)] := by
  induction q with
  | nil => rfl
  | cons e rest ih =>
    obtain ⟨k0, v0⟩ := e
    rw [setParam, if_neg (hk (k0, v0) (List.mem_cons_self _ _)),
      ih (fun e he => hk e (List.mem_cons_of_mem _ he))]
    rfl

theorem filteredEntries_cons (k : Str) (v : JsValue) (rest : List (Str × JsValue)) :
    filteredEntries ((k, v) :: rest)
      = if keepParam v then (k, jsToString v) :: filteredEntries rest
        else filteredEntries rest := by
  by_cases h : keepParam v <;> simp [filteredEntries, List.filter_cons, h]

theorem applyParams_eq (ps : List (Str × JsValue)) (q : List (Str × Str))
    (hdisj : ∀ k, k ∈ ps.map Prod.fst → k ∉ q.map Prod.fst)
    (hnd : (ps.map Prod.fst).Nodup) :
    applyParams q ps = q ++ filteredEntries ps := by
  induction ps generalizing q with
  | nil => simp [applyParams, filteredEntries]
  | cons e rest ih =>
    obtain ⟨k, v⟩ := e
    rw [List.map_cons] at hdisj hnd
    have hndc := List.nodup_cons.mp hnd
    rw [filteredEntries_cons]
    by_cases hkeep : keepParam v = true
    · have hstep : applyParams q ((k, v) :: rest)
          = applyParams (setParam q k (jsToString v)) rest := by
        simp [applyParams, hkeep]
      have hknotin : ∀ e ∈ q, e.1 ≠ k := by
        intro e he hek
        exact hdisj k (List.mem_cons_self _ _) (hek ▸ List.mem_map_of_mem Prod.fst he)
      have hdisj' : ∀ k', k' ∈ rest.map Prod.fst →
          k' ∉ (q ++ [(k, jsToString v)]).map Prod.fst := by
        intro k' hk' hk'q
        rw [List.map_append, List.mem_append] at hk'q
        rcases hk'q with hk'q | hk'q
        · exact hdisj k' (List.mem_cons_of_mem _ hk') hk'q
        · have hkk : k' = k := by simpa using hk'q
          exact hndc.1 (hkk ▸ hk')
      rw [hstep, setParam_append q k (jsToString v) hknotin,
        ih (q ++ [(k, jsToString v)]) hdisj' hndc.2, if_pos hkeep, List.append_assoc]
      rfl
    · have hstep : applyParams q ((k, v) :: rest) = applyParams q rest := by
        simp [applyParams, hkeep]
      rw [hstep, if_neg hkeep]
      exact ih q (fun k' hk' => hdisj k' (List.mem_cons_of_mem _ hk')) hndc.2

theorem filteredEntries_keys_nodup (ps : List (Str × JsValue))
    (hnd : (ps.map Prod.fst).Nodup) :
    ((filteredEntries ps).map Prod.fst).Nodup := by
  have hmap : (filteredEntries ps).map Prod.fst
      = (ps.filter (fun kv => keepParam kv.2)).map Prod.fst := by
    simp [filteredEntries, List.map_map]
  rw [hmap]
  exact hnd.sublist ((List.filter_sublist ps).map Prod.fst)

/-- C3 amended: for all (path, params) where path carries no query string of
its own and, when taken as absolute (it starts with "http"), is a parseable
URL, buildUrl returns a URL whose query consists exactly of the
non-null/non-undefined entries of params, each key exactly once (in entry
order), and whose pre-query part is path itself when path starts with
"http" (the code's absolute-URL test) and the base address followed by path
otherwise. -/
theorem claim_C3_amended (path : Str) (ps : List (Str × JsValue))
    (hnodup : (ps.map Prod.fst).Nodup)
    (hq : ∀ c ∈ path, (c == '?') = false)
    (habs : startsSeq ("http").toList path = true → hasScheme path = true) :
    ∃ u, buildUrl path (some ps) = some u ∧
      u.query = filteredEntries ps ∧
      (∀ e, e ∈ u.query ↔ e ∈ filteredEntries ps) ∧
      (u.query.map Prod.fst).Nodup ∧
      u.withoutQuery =
        (if startsSeq ("http").toList path then path else API_BASE_URL ++ path) := by
  have happly : applyParams [] ps = filteredEntries ps := by
    have h := applyParams_eq ps [] (fun k _ hk => absurd hk (List.not_mem_nil k)) hnodup
    rwa [List.nil_append] at h
  by_cases hstart : startsSeq ("http").toList path = true
  · have hparse : parseUrl path = some { withoutQuery := path, query := [] } :=
      parseUrl_noQuery path (habs hstart) hq
    refine ⟨{ withoutQuery := path, query := filteredEntries ps }, ?_, rfl,
      fun e => Iff.rfl, filteredEntries_keys_nodup ps hnodup, by rw [if_pos hstart]⟩
    rw [buildUrl, if_pos hstart, hparse]
    simp [happly]
  · have hbase : ∀ c ∈ API_BASE_URL, (c == '?') = false := by decide
    have hall : ∀ c ∈ API_BASE_URL ++ path, (c == '?') = false := by
      intro c hc
      rcases List.mem_append.mp hc with hc' | hc'
      · exact hbase c hc'
      · exact hq c hc'
    have hparse : parseUrl (API_BASE_URL ++ path)
        = some { withoutQuery := API_BASE_URL ++ path, query := [] } :=
      parseUrl_noQuery _ (hasScheme_base_append path) hall
    refine ⟨{ withoutQuery := API_BASE_URL ++ path, query := filteredEntries ps }, ?_, rfl,
      fun e => Iff.rfl, filteredEntries_keys_nodup ps hnodup, by rw [if_neg hstart]⟩
    rw [buildUrl, if_neg hstart, hparse]
    simp [happly]

/-- C3 witness: concrete evaluation.  For path "/x" and params with one kept
entry a=1 and one null entry b, the result is the base-resolved URL with
query exactly a=1. -/
theorem claim_C3_witness :
    buildUrl ("/x").toList
        (some [(("a").toList, JsValue.vnum 1), (("b").toList, JsValue.vnull)])
      = some { withoutQuery := ("http://127.0.0.1:8000/x").toList
             , query := [(("a").toList, ("1").toList)] } := by
  obtain ⟨u, hu, hquery, -, -, hw⟩ :=
    claim_C3_amended ("/x").toList
      [(("a").toList, JsValue.vnum 1), (("b").toList, JsValue.vnull)]
      (by decide) (by decide) (by decide)
  have hu' : u = { withoutQuery := ("http://127.0.0.1:8000/x").toList
                 , query := [(("a").toList, ("1").toList)] } := by
    obtain ⟨w, q⟩ := u
    simp only at hquery hw
    rw [show (filteredEntries [(("a").toList, JsValue.vnum 1), (("b").toList, JsValue.vnull)])
        = [(("a").toList, ("1").toList)] from by decide] at hquery
    rw [if_neg (by decide)] at hw
    simp only [UrlObj.mk.injEq]
    exact ⟨by rw [hw]; decide, hquery⟩
  rw [hu] at *
  rw [hu']

/-! ## pages/Fisheries.tsx : state and the classification handler (lines 7-97)

The component's React state is a record;事 setX(v) calls become functional
updates.  selectedFile holds the File object's identity (a ℕ: two distinct
selections are distinct objects).  The three postFormData calls of
handleClassifyFish are abstracted as their outcomes r1, r2, r3 (ok with the
parsed response, or error when the call threw for any reason: transport,
non-ok status, or parse).  The handler additionally returns the updated
module-global mock counter and the list of endpoint paths it requested, and
is typed in Except so that an uncaught exception would be visible as an
error value: the nested try/catch chain never produces one. -/

/-- a JSON confidence value: number or string (the two shapes the code
distinguishes with typeof). -/
inductive ConfVal where
  | num (q : ℚ)
  | str (s : String)
deriving DecidableEq

/-- confidence formatting: numbers become toFixed(2) with a percent suffix,
strings pass through unchanged. -/
def confToString : ConfVal → String
  | ConfVal.num q => toFixed2 q ++ ("%")
  | ConfVal.str s => s

/-- the response fields the classification flow reads. -/
structure ClassifyResp where
  species : Option String
  predicted_class : Option String
  confidence : ConfVal
deriving DecidableEq

/-- JavaScript a || b for string-or-undefined a (empty string is falsy). -/
def jsOrString (a b : Option String) : Option String :=
  match a with
  | some s => if s = ("") then b else some s
  | none => b

structure ClassificationResult where
  species : Option String
  confidence : String
deriving DecidableEq

/-- Fisheries component state.  previewUrl is the object-URL state;
effectCleanup and nextUrl are bookkeeping for the preview effect model
(see the preview lifecycle section): effectCleanup is the revocation
callback registered by the last effect run, nextUrl the fresh-URL supply
of URL.createObjectURL. -/
structure FishState where
  selectedFile : Option ℕ
  classificationResult : Option ClassificationResult
  classifyError : Option String
  uploading : Bool
  previewUrl : Option ℕ
  effectCleanup : Option ℕ
  nextUrl : ℕ
deriving DecidableEq

/-- outcomes of the three postFormData attempts, in source order, plus the
Math.random() draw consumed if the mock fallback is reached. -/
structure FishEnv where
  r1 : Except Unit ClassifyResp
  r2 : Except Unit ClassifyResp
  r3 : Except Unit ClassifyResp
  u : ℚ

/-- the three endpoints tried by handleClassifyFish, in order. -/
def fishPaths : List String :=
  ["/predict/fish_species", "/classify/fish", "/api/v1/fish/classify"]

/-- handleClassifyFish (Fisheries.tsx lines 61-97).  Returns the new state,
the new mock counter and the request trace. -/
def handleClassifyFish (env : FishEnv) (s : FishState) (counter : ℕ) :
    Except Unit (FishState × ℕ × List String) :=
  match s.selectedFile with
  | none => Except.ok (s, counter, [])
  | some _ =>
    match env.r1 with
    | Except.ok result =>
      Except.ok ({ s with
          classificationResult := some ⟨result.species, confToString result.confidence⟩,
          classifyError := none, uploading := false },
        counter, [("/predict/fish_species")])
    | Except.error _ =>
      match env.r2 with
      | Except.ok result =>
        Except.ok ({ s with
            classificationResult := some
              ⟨jsOrString result.predicted_class result.species,
               confToString result.confidence⟩,
            classifyError := none, uploading := false },
          counter, [("/predict/fish_species"), ("/classify/fish")])
      | Except.error _ =>
        match env.r3 with
        | Except.ok result =>
          Except.ok ({ s with
              classificationResult := some
                ⟨jsOrString result.predicted_class result.species,
                 confToString result.confidence⟩,
              classifyError := none, uploading := false },
            counter, fishPaths)
        | Except.error _ =>
          Except.ok ({ s with
              classificationResult := some
                ⟨some (mockFishClassification counter env.u).1.1,
                 (mockFishClassification counter env.u).1.2⟩,
              classifyError := none, uploading := false },
            (mockFishClassification counter env.u).2, fishPaths)

/-- C1: when a file is selected and the primary endpoint and both alternates
all fail, handleClassifyFish sets the classification result to the mock
generator's value and terminates normally (ok value, no failure
propagates); the mock counter advances and all three endpoints were
tried. -/
theorem claim_C1 (env : FishEnv) (s : FishState) (counter : ℕ) (f : ℕ)
    (hf : s.selectedFile = some f)
    (h1 : env.r1 = Except.error ())
    (h2 : env.r2 = Except.error ())
    (h3 : env.r3 = Except.error ()) :
    handleClassifyFish env s counter =
      Except.ok ({ s with
          classificationResult := some
            ⟨some (mockFishClassification counter env.u).1.1,
             (mockFishClassification counter env.u).1.2⟩,
          classifyError := none, uploading := false },
        (mockFishClassification counter env.u).2, fishPaths) := by
  rw [handleClassifyFish, hf, h1, h2, h3]

/-- C1 witness: concrete evaluation with all three endpoints failing. -/
theorem claim_C1_witness :
    handleClassifyFish ⟨Except.error (), Except.error (), Except.error (), 1/2⟩
        ⟨some 0, none, none, false, none, none, 0⟩ 0 =
      Except.ok (⟨some 0, some ⟨some ("Neon Tetra"), ("81.00%")⟩, none, false, none, none, 0⟩,
        1, fishPaths) := by
  rw [claim_C1 ⟨Except.error (), Except.error (), Except.error (), 1/2⟩
    ⟨some 0, none, none, false, none, none, 0⟩ 0 0 rfl rfl rfl rfl]
  have hm : mockFishClassification 0 (1/2) = ((("Neon Tetra"), ("81.00%")), 1) := by
    have h81 : ((1 : ℚ)/2 * (87 - 75) + 75) = 81 := by norm_num
    have hfh : toFixedHundredths 81 = 8100 := by norm_num [toFixedHundredths]
    rw [mockFishClassification, h81]
    simp only [toFixed2, hfh]
    rfl
  rw [hm]

/-! ## pages/Biodiversity.tsx : state and the eDNA handler (lines 10-96)

handleAnalyzeeDNA fetches /api/v1/edna/analyze; backend abstracts the
combined outcome of fetch + response.json(): ok with the parsed object, or
error when either rejected (an HTTP error status alone does not reject).
The nested condition invasive_species && invasive_species.length > 0
? invasive_species[0] : null is embedded as a match on some (inv :: _). -/

structure SpeciesResult where
  sequence : String
  species : String
  confidence : Option ℚ
  invasive : Option Bool
deriving DecidableEq

/-- the response fields the eDNA flow reads. -/
structure EdnaResponse where
  detected_species : Option (List SpeciesResult)
  invasive_species : Option (List SpeciesResult)

/-- value stored in the invasiveAlert state: the code stores
invasive.species || invasive, i.e. the species string unless it is empty
(falsy), in which case the hit object itself. -/
inductive AlertVal where
  | fromSpecies (s : String)
  | fromHit (h : SpeciesResult)
deriving DecidableEq

def alertOf (h : SpeciesResult) : AlertVal :=
  if h.species = ("") then AlertVal.fromHit h else AlertVal.fromSpecies h.species

structure BioState where
  selectedFile : Option ℕ
  analysisResults : Option (List SpeciesResult)
  loading : Bool
  invasiveAlert : Option AlertVal
deriving DecidableEq

def ednaEndpoint : String := "http://127.0.0.1:8000/api/v1/edna/analyze"

/-- the local mock table of Biodiversity.tsx (lines 65-96). -/
def getMockeDNAResults : List SpeciesResult :=
  [ { sequence := ("ATCGATCGATCGATCG"), species := ("Atlantic Cod (Gadus morhua)"),
      confidence := some 94, invasive := some false }
  , { sequence := ("GCTAGCTAGCTAGCTA"), species := ("Harbor Seal (Phoca vitulina)"),
      confidence := some 89, invasive := some false }
  , { sequence := ("TTAATTAATTAATTAA"), species := ("Blue Mussel (Mytilus edulis)"),
      confidence := some 76, invasive := some false }
  , { sequence := ("CGCGCGCGCGCGCGCG"), species := ("Nile Tilapia (Oreochromis niloticus)"),
      confidence := some 82, invasive := some true }
  , { sequence := ("AAAATTTTAAAATTTT"), species := ("European Green Crab (Carcinus maenas)"),
      confidence := some 71, invasive := some false } ]

/-- handleAnalyzeeDNA (Biodiversity.tsx lines 25-63).  Returns the new state
and the request trace. -/
def handleAnalyzeeDNA (backend : Except Unit EdnaResponse) (s : BioState) :
    BioState × List String :=
  match s.selectedFile with
  | none => (s, [])
  | some _ =>
    match backend with
    | Except.ok result =>
      match result.detected_species with
      | some detected =>
        match result.invasive_species with
        | some (inv :: _) =>
          ({ s with
              analysisResults := some detected
              invasiveAlert := some (alertOf inv)
              loading := false }, [ednaEndpoint])
        | _ =>
          ({ s with analysisResults := some detected, loading := false }, [ednaEndpoint])
      | none => ({ s with loading := false }, [ednaEndpoint])
    | Except.error _ =>
      match getMockeDNAResults.find? (fun r => r.invasive == some true) with
      | some inv =>
        ({ s with
            analysisResults := some getMockeDNAResults
            invasiveAlert := some (AlertVal.fromSpecies inv.species)
            loading := false },
          [ednaEndpoint])
      | none =>
        ({ s with analysisResults := some getMockeDNAResults, loading := false },
          [ednaEndpoint])

/-- claim C2 exactly as stated: after any completed run from a fresh
selection (alert cleared), whichever path was taken, the alert is set iff
the resulting hit list contains an invasive hit, and then names the species
of the first such hit in sequence order. -/
def ClaimC2Stated : Prop :=
  ∀ (b : Except Unit EdnaResponse) (s : BioState) (f : ℕ),
    s.selectedFile = some f → s.invasiveAlert = none →
    ∀ hits, (handleAnalyzeeDNA b s).1.analysisResults = some hits →
      (((handleAnalyzeeDNA b s).1.invasiveAlert ≠ none) ↔
        (hits.find? (fun h => h.invasive == some true)).isSome = true) ∧
      (∀ h, hits.find? (fun h => h.invasive == some true) = some h →
        (handleAnalyzeeDNA b s).1.invasiveAlert = some (AlertVal.fromSpecies h.species))

def cexHitA : SpeciesResult :=
  { sequence := ("s1"), species := ("Species A"), confidence := some 90, invasive := some false }
def cexHitB : SpeciesResult :=
  { sequence := ("s2"), species := ("Species B"), confidence := some 80, invasive := some true }
def cexHitC : SpeciesResult :=
  { sequence := ("s3"), species := ("Species C"), confidence := some 70, invasive := some true }

/-- C2 counterexample: on the backend path the code never scans the
detected hit list; for a response whose detected_species is
[A(invasive=false), B(invasive=true), C(invasive=true)] with no
invasive_species field, the alert stays unset although B is an invasive
hit, so the claimed iff fails. -/
theorem claim_C2_counterexample : ¬ ClaimC2Stated := by
  intro hcl
  obtain ⟨hiff, -⟩ := hcl (Except.ok ⟨some [cexHitA, cexHitB, cexHitC], none⟩)
    ⟨some 0, none, false, none⟩ 0 rfl rfl [cexHitA, cexHitB, cexHitC] rfl
  exact (hiff.mpr rfl) rfl

/-- C2 amended: the iff holds only on the mock-fallback path, where the
alert is set to the first invasive hit of the fixed mock table
(Nile Tilapia); on the backend path the alert is derived solely from the
response's invasive_species field: set to the first element of that list
when present and nonempty (its species string, or the raw hit when the
string is empty), and left unchanged otherwise — the detected hit list is
never scanned. -/
theorem claim_C2_amended (b : Except Unit EdnaResponse) (s : BioState) (f : ℕ)
    (hf : s.selectedFile = some f) :
    (∀ e, b = Except.error e →
      (handleAnalyzeeDNA b s).1.analysisResults = some getMockeDNAResults ∧
      (handleAnalyzeeDNA b s).1.invasiveAlert
        = some (AlertVal.fromSpecies ("Nile Tilapia (Oreochromis niloticus)")) ∧
      getMockeDNAResults.find? (fun r => r.invasive == some true)
        = some { sequence := ("CGCGCGCGCGCGCGCG"),
                 species := ("Nile Tilapia (Oreochromis niloticus)"),
                 confidence := some 82, invasive := some true }) ∧
    (∀ resp, b = Except.ok resp →
      (∀ detected, resp.detected_species = some detected →
        (handleAnalyzeeDNA b s).1.analysisResults = some detected ∧
        (handleAnalyzeeDNA b s).1.invasiveAlert
          = (match resp.invasive_species with
             | some (inv :: _) => some (alertOf inv)
             | _ => s.invasiveAlert)) ∧
      (resp.detected_species = none →
        (handleAnalyzeeDNA b s).1 = { s with loading := false })) := by
  constructor
  · intro e he
    subst he
    rw [handleAnalyzeeDNA, hf]
    exact ⟨rfl, rfl, rfl⟩
  · intro resp he
    subst he
    constructor
    · intro detected hd
      rcases hr : resp.invasive_species with - | l
      · rw [handleAnalyzeeDNA, hf, hd, hr]
        exact ⟨rfl, rfl⟩
      · cases l with
        | nil =>
          rw [handleAnalyzeeDNA, hf, hd, hr]
          exact ⟨rfl, rfl⟩
        | cons inv t =>
          rw [handleAnalyzeeDNA, hf, hd, hr]
          exact ⟨rfl, rfl⟩
    · intro hd
      rw [handleAnalyzeeDNA, hf, hd]

/-- C2 witness: concrete evaluation of the amended theorem on the mock
path. -/
theorem claim_C2_witness :
    (handleAnalyzeeDNA (Except.error ()) ⟨some 0, none, false, none⟩).1.invasiveAlert
      = some (AlertVal.fromSpecies ("Nile Tilapia (Oreochromis niloticus)")) :=
  ((claim_C2_amended (Except.error ()) ⟨some 0, none, false, none⟩ 0 rfl).1 () rfl).2.1

/-- C10: with no file selected, both handlers return immediately: no request
is issued (empty trace) and the view state is unchanged. -/
theorem claim_C10 (env : FishEnv) (s : FishState) (counter : ℕ)
    (b : Except Unit EdnaResponse) (t : BioState)
    (hs : s.selectedFile = none) (ht : t.selectedFile = none) :
    handleClassifyFish env s counter = Except.ok (s, counter, []) ∧
    handleAnalyzeeDNA b t = (t, []) := by
  constructor
  · rw [handleClassifyFish, hs]
  · rw [handleAnalyzeeDNA.eq_def, ht]

/-- C10 witness: concrete evaluation with empty selections. -/
theorem claim_C10_witness :
    handleClassifyFish ⟨Except.error (), Except.error (), Except.error (), 0⟩
        ⟨none, none, none, false, none, none, 0⟩ 0
      = Except.ok (⟨none, none, none, false, none, none, 0⟩, 0, []) :=
  (claim_C10 ⟨Except.error (), Except.error (), Except.error (), 0⟩
    ⟨none, none, none, false, none, none, 0⟩ 0 (Except.error ())
    ⟨none, none, false, none⟩ rfl rfl).1

/-! ## pages/Fisheries.tsx : preview URL lifecycle (lines 32-41, 53-59)

handleFileSelect stores the selected File and clears the previous result;
the effect with dependency [selectedFile] creates an object URL for the
file and returns a cleanup revoking it.  React semantics embedded here:
when the dependency changed, the previous effect run's cleanup executes
before the new effect body.  Object URLs are naturals handed out by a
fresh counter (URL.createObjectURL returns a fresh handle); effectCleanup
records the URL the pending cleanup would revoke; an action trace records
each createObjectURL / revokeObjectURL call in execution order.  File
identity: two selections of distinct files are distinct values; the
dependency comparison is identity (Object.is). -/

inductive UrlAction where
  | create (u : ℕ)
  | revoke (u : ℕ)
deriving DecidableEq

/-- handleFileSelect (lines 53-59): with a file picked, store it and clear
the previous classification result; with none, do nothing. -/
def handleFileSelect (file : Option ℕ) (s : FishState) : FishState :=
  match file with
  | some f => { s with selectedFile := some f, classificationResult := none }
  | none => s

/-- body of the preview effect (lines 32-41): with no file, revoke and drop
any previous preview URL; with a file, create a fresh URL, store it and
register its revocation as the cleanup. -/
def previewEffect (s : FishState) : FishState × List UrlAction :=
  match s.selectedFile with
  | none =>
    match s.previewUrl with
    | some u => ({ s with previewUrl := none }, [UrlAction.revoke u])
    | none => ({ s with previewUrl := none }, [])
  | some _ =>
    ({ s with
        previewUrl := some s.nextUrl
        effectCleanup := some s.nextUrl
        nextUrl := s.nextUrl + 1 },
      [UrlAction.create s.nextUrl])

/-- a React effect cycle: run the pending cleanup of the previous effect
run, then the effect body. -/
def effectCycle (s : FishState) : FishState × List UrlAction :=
  match s.effectCleanup with
  | some u =>
    ((previewEffect { s with effectCleanup := none }).1,
      UrlAction.revoke u :: (previewEffect { s with effectCleanup := none }).2)
  | none => previewEffect s

/-- one user file-selection event: the change handler runs, then the effect
cycle if (and only if) the selectedFile dependency changed. -/
def selectStep (file : Option ℕ) (s : FishState) : FishState × List UrlAction :=
  if (handleFileSelect file s).selectedFile = s.selectedFile
  then (handleFileSelect file s, [])
  else effectCycle (handleFileSelect file s)

def initFishState : FishState := ⟨none, none, none, false, none, none, 0⟩

/-- run a sequence of selection events from the freshly mounted view,
accumulating the action trace. -/
def runSelects (evs : List (Option ℕ)) : FishState × List UrlAction :=
  evs.foldl (fun acc e => ((selectStep e acc.1).1, acc.2 ++ (selectStep e acc.1).2))
    (initFishState, [])

/-- the live object URLs after a trace: created and not yet revoked. -/
def applyAction (live : List ℕ) : UrlAction → List ℕ
  | UrlAction.create u => live ++ [u]
  | UrlAction.revoke u => live.erase u

def liveOf (tr : List UrlAction) : List ℕ := tr.foldl applyAction []

def optList : Option ℕ → List ℕ
  | some u => [u]
  | none => []

/-- invariant tying a reachable view state to its trace: the live URLs are
exactly the held preview URL, the pending cleanup targets it, and no trace
prefix ever had two live URLs. -/
def PreviewInv (s : FishState) (tr : List UrlAction) : Prop :=
  liveOf tr = optList s.previewUrl ∧
  s.effectCleanup = s.previewUrl ∧
  ∀ k, (liveOf (tr.take k)).length ≤ 1

theorem liveOf_append (tr acts : List UrlAction) :
    liveOf (tr ++ acts) = acts.foldl applyAction (liveOf tr) := by
  rw [liveOf, liveOf, List.foldl_append]

theorem liveOf_take_le (tr acts : List UrlAction)
    (h1 : ∀ k, (liveOf (tr.take k)).length ≤ 1)
    (h2 : ∀ j, (List.foldl applyAction (liveOf tr) (acts.take j)).length ≤ 1) :
    ∀ k, (liveOf ((tr ++ acts).take k)).length ≤ 1 := by
  intro k
  rw [List.take_append_eq_append_take, liveOf_append]
  by_cases hk : k ≤ tr.length
  · have h0 : k - tr.length = 0 := by omega
    rw [h0, List.take_zero]
    simpa using h1 k
  · have hall : tr.take k = tr := List.take_of_length_le (by omega)
    rw [hall]
    exact h2 (k - tr.length)

theorem selectStep_inv (e : Option ℕ) (s : FishState) (tr : List UrlAction)
    (h : PreviewInv s tr) :
    PreviewInv (selectStep e s).1 (tr ++ (selectStep e s).2) := by
  obtain ⟨hlive, hcl, hpre⟩ := h
  by_cases hsame : (handleFileSelect e s).selectedFile = s.selectedFile
  · have hstep : selectStep e s = (handleFileSelect e s, []) := by
      rw [selectStep, if_pos hsame]
    rw [hstep]
    have hfields : (handleFileSelect e s).previewUrl = s.previewUrl ∧
        (handleFileSelect e s).effectCleanup = s.effectCleanup := by
      cases e <;> simp [handleFileSelect]
    refine ⟨?_, ?_, ?_⟩
    · rw [List.append_nil, hfields.1]; exact hlive
    · rw [hfields.1, hfields.2]; exact hcl
    · rw [List.append_nil]; exact hpre
  · have hsel : ∃ f, e = some f := by
      cases e with
      | none => exact absurd rfl hsame
      | some f => exact ⟨f, rfl⟩
    obtain ⟨f, rfl⟩ := hsel
    cases hpu : s.previewUrl with
    | none =>
      have hcln : s.effectCleanup = none := by rw [hcl, hpu]
      have hstep : selectStep (some f) s
          = ({ s with
                selectedFile := some f
                classificationResult := none
                previewUrl := some s.nextUrl
                effectCleanup := some s.nextUrl
                nextUrl := s.nextUrl + 1 },
             [UrlAction.create s.nextUrl]) := by
        rw [selectStep, if_neg hsame, handleFileSelect, effectCycle]
        simp [hcln, previewEffect]
      rw [hstep]
      rw [hpu] at hlive
      refine ⟨?_, rfl, ?_⟩
      · rw [liveOf_append, hlive]
        rfl
      · refine liveOf_take_le tr _ hpre ?_
        intro j
        rw [hlive]
        cases j with
        | zero => simp [optList]
        | succ j => simp [applyAction, optList]
    | some u =>
      have hclu : s.effectCleanup = some u := by rw [hcl, hpu]
      have hstep : selectStep (some f) s
          = ({ s with
                selectedFile := some f
                classificationResult := none
                previewUrl := some s.nextUrl
                effectCleanup := some s.nextUrl
                nextUrl := s.nextUrl + 1 },
             [UrlAction.revoke u, UrlAction.create s.nextUrl]) := by
        rw [selectStep, if_neg hsame, handleFileSelect, effectCycle]
        simp [hclu, previewEffect]
      rw [hstep]
      rw [hpu] at hlive
      refine ⟨?_, rfl, ?_⟩
      · rw [liveOf_append, hlive]
        show ((([u] : List ℕ).erase u) ++ [s.nextUrl]) = [s.nextUrl]
        rw [List.erase_cons_head]
        rfl
      · refine liveOf_take_le tr _ hpre ?_
        intro j
        rw [hlive]
        match j with
        | 0 => simp [optList]
        | 1 => simp [applyAction, List.erase_cons_head, optList]
        | (j+2) => simp [applyAction, List.erase_cons_head, optList]

theorem runSelects_inv (evs : List (Option ℕ)) :
    PreviewInv (runSelects evs).1 (runSelects evs).2 := by
  have hgen : ∀ (l : List (Option ℕ)) (s : FishState) (tr : List UrlAction),
      PreviewInv s tr →
      PreviewInv (l.foldl (fun acc e => ((selectStep e acc.1).1, acc.2 ++ (selectStep e acc.1).2)) (s, tr)).1
        (l.foldl (fun acc e => ((selectStep e acc.1).1, acc.2 ++ (selectStep e acc.1).2)) (s, tr)).2 := by
    intro l
    induction l with
    | nil => intro s tr h; exact h
    | cons e es ih =>
      intro s tr h
      exact ih (selectStep e s).1 (tr ++ (selectStep e s).2) (selectStep_inv e s tr h)
  have hinit : PreviewInv initFishState [] := by
    refine ⟨rfl, rfl, ?_⟩
    intro k
    rw [List.take_nil]
    simp [liveOf]
  exact hgen evs initFishState [] hinit

/-- C9: in the Fisheries view, after any sequence of file-selection events,
no point of the action trace ever has two live preview URLs; and whenever a
new file f2 is selected while a preview URL u1 is held, the step's trace is
exactly revoke u1 followed by create of the fresh URL (revocation strictly
precedes creation), the classification result is cleared, and the extended
trace still never has two live URLs at any point. -/
theorem claim_C9 (evs : List (Option ℕ)) (f2 u1 : ℕ)
    (hp : (runSelects evs).1.previewUrl = some u1)
    (hne : some f2 ≠ (runSelects evs).1.selectedFile) :
    (selectStep (some f2) (runSelects evs).1).2
      = [UrlAction.revoke u1, UrlAction.create (runSelects evs).1.nextUrl] ∧
    (selectStep (some f2) (runSelects evs).1).1.classificationResult = none ∧
    (∀ k, (liveOf ((runSelects evs).2.take k)).length ≤ 1) ∧
    (∀ k, (liveOf (((runSelects evs).2
        ++ (selectStep (some f2) (runSelects evs).1).2).take k)).length ≤ 1) := by
  obtain ⟨hlive, hcl, hpre⟩ := runSelects_inv evs
  set s := (runSelects evs).1 with hs
  have hsame : ¬ ((handleFileSelect (some f2) s).selectedFile = s.selectedFile) := by
    simpa [handleFileSelect] using hne
  have hclu : s.effectCleanup = some u1 := by rw [hcl, hp]
  have hstep : selectStep (some f2) s
      = ({ s with
            selectedFile := some f2
            classificationResult := none
            previewUrl := some s.nextUrl
            effectCleanup := some s.nextUrl
            nextUrl := s.nextUrl + 1 },
         [UrlAction.revoke u1, UrlAction.create s.nextUrl]) := by
    rw [selectStep, if_neg hsame, handleFileSelect, effectCycle]
    simp [hclu, previewEffect]
  refine ⟨by rw [hstep], by rw [hstep], hpre, ?_⟩
  have hfull := selectStep_inv (some f2) s (runSelects evs).2
    ⟨hlive, hcl, hpre⟩
  exact hfull.2.2

/-- C9 witness: concrete evaluation after selecting file 0 then file 1. -/
theorem claim_C9_witness :
    (selectStep (some 1) (runSelects [some 0]).1).2
      = [UrlAction.revoke 0, UrlAction.create 1] := by
  have h := claim_C9 [some 0] 1 0 (by rfl) (by decide)
  exact h.1

/-! ## utils/mock.ts : mockDepth (lines 112-142)

Depths run 900, 890, ..., 0 (91 samples); each of the three series draws
one Math.random() per sample, embedded as the functions uc, up, us indexed
by list position.  Real-number arithmetic (Math.exp) forces ℝ here. -/

/-- depth at list position i: the loop runs d = 900 down to 0 step 10. -/
def depthAt (i : ℕ) : ℝ := 900 - 10 * i

/-- chlorophyll sample: baseline (+0.01 below 300 m) plus a Gaussian peak at
80 m (amplitude 0.8, width 18) plus noise, floored at 0. -/
noncomputable def chlorophyllAt (uc : ℕ → ℝ) (i : ℕ) : ℝ :=
  max 0 ((0.02 + (if (300 : ℝ) < depthAt i then 0.01 else 0))
    + Real.exp (-((depthAt i - 80) ^ 2 / (2 * 18 ^ 2))) * 0.8
    + (uc i - 0.5) * 0.01)

/-- pH sample: linear 6.0 → 8.1 with depth plus noise, clamped to
[5.5, 9.0]. -/
noncomputable def pHAt (up : ℕ → ℝ) (i : ℕ) : ℝ :=
  max 5.5 (min 9.0 (6.0 + 2.1 * (depthAt i / 900) + (up i - 0.5) * 0.03))

/-- salinity sample: 34.8 + 0.2·(d/900) plus noise, minus the three fixed
depth-band anomalies, clamped to [33.0, 35.5]. -/
noncomputable def salinityAt (us : ℕ → ℝ) (i : ℕ) : ℝ :=
  max 33.0 (min 35.5
    ((34.8 + 0.2 * (depthAt i / 900) + (us i - 0.5) * 0.08)
      - (if 820 < depthAt i ∧ depthAt i < 860 then 0.8 else 0)
      - (if 740 < depthAt i ∧ depthAt i < 780 then 0.5 else 0)
      - (if 380 < depthAt i ∧ depthAt i < 420 then 0.9 else 0)))

structure DepthData where
  depths : List ℝ
  chlorophyll : List ℝ
  pH : List ℝ
  salinity : List ℝ

noncomputable def mockDepth (uc up us : ℕ → ℝ) : DepthData :=
  { depths := (List.range 91).map (fun i => depthAt i)
  , chlorophyll := (List.range 91).map (chlorophyllAt uc)
  , pH := (List.range 91).map (pHAt up)
  , salinity := (List.range 91).map (salinityAt us) }

/-- for x ≥ 0, exp(−x) ≤ 1/(1+x) (from 1+x ≤ exp x). -/
theorem exp_neg_le_inv (x : ℝ) (hx : 0 ≤ x) : Real.exp (-x) ≤ 1 / (1 + x) := by
  rw [Real.exp_neg, ← one_div]
  exact one_div_le_one_div_of_le (by linarith) (by linarith [Real.add_one_le_exp x])

theorem chlorophyllAt_peak (uc : ℕ → ℝ) (h0 : 0 ≤ uc 82) :
    (0.815 : ℝ) ≤ chlorophyllAt uc 82 := by
  rw [chlorophyllAt]
  have hd : depthAt 82 = 80 := by norm_num [depthAt]
  rw [hd, if_neg (by norm_num)]
  have hz : ((80 : ℝ) - 80) ^ 2 / (2 * 18 ^ 2) = 0 := by norm_num
  rw [hz, neg_zero, Real.exp_zero]
  have hnoise : -(0.005 : ℝ) ≤ (uc 82 - 0.5) * 0.01 := by nlinarith
  exact le_trans (by linarith) (le_max_right _ _)

theorem chlorophyllAt_surface (uc : ℕ → ℝ) (h1 : uc 90 < 1) :
    chlorophyllAt uc 90 ≤ 0.0986 := by
  rw [chlorophyllAt]
  have hd : depthAt 90 = 0 := by norm_num [depthAt]
  rw [hd, if_neg (by norm_num)]
  have he : ((0 : ℝ) - 80) ^ 2 / (2 * 18 ^ 2) = 6400 / 648 := by norm_num
  rw [he]
  have hexp : Real.exp (-(6400 / 648 : ℝ)) ≤ 1 / (1 + 6400 / 648) :=
    exp_neg_le_inv _ (by norm_num)
  have hnoise : (uc 90 - 0.5) * 0.01 ≤ 0.005 := by nlinarith
  apply max_le (by norm_num)
  have : (1 : ℝ) / (1 + 6400 / 648) = 648 / 7048 := by norm_num
  nlinarith [Real.exp_pos (-(6400 / 648 : ℝ))]

theorem chlorophyllAt_deep (uc : ℕ → ℝ) (h1 : uc 0 < 1) :
    chlorophyllAt uc 0 ≤ 0.0358 := by
  rw [chlorophyllAt]
  have hd : depthAt 0 = 900 := by norm_num [depthAt]
  rw [hd, if_pos (by norm_num)]
  have he : ((900 : ℝ) - 80) ^ 2 / (2 * 18 ^ 2) = 672400 / 648 := by norm_num
  rw [he]
  have hexp : Real.exp (-(672400 / 648 : ℝ)) ≤ 1 / (1 + 672400 / 648) :=
    exp_neg_le_inv _ (by norm_num)
  have hnoise : (uc 0 - 0.5) * 0.01 ≤ 0.005 := by nlinarith
  apply max_le (by norm_num)
  nlinarith [Real.exp_pos (-(672400 / 648 : ℝ))]

/-- C6: for every possible noise draw, the mockDepth output has its
chlorophyll value at depth 80 (position 82) strictly above the values at
depth 0 (position 90) and depth 900 (position 0); every salinity value lies
in [33.0, 35.5]; every pH value lies in [5.5, 9.0]. -/
theorem claim_C6 (uc up us : ℕ → ℝ) (hc : ∀ i, 0 ≤ uc i ∧ uc i < 1) :
    (mockDepth uc up us).depths.getD 82 0 = 80 ∧
    (mockDepth uc up us).depths.getD 90 0 = 0 ∧
    (mockDepth uc up us).depths.getD 0 0 = 900 ∧
    (mockDepth uc up us).chlorophyll.getD 90 0 < (mockDepth uc up us).chlorophyll.getD 82 0 ∧
    (mockDepth uc up us).chlorophyll.getD 0 0 < (mockDepth uc up us).chlorophyll.getD 82 0 ∧
    (∀ x ∈ (mockDepth uc up us).salinity, 33 ≤ x ∧ x ≤ 35.5) ∧
    (∀ x ∈ (mockDepth uc up us).pH, 5.5 ≤ x ∧ x ≤ 9) := by
  have hchl : ∀ i, i < 91 →
      (mockDepth uc up us).chlorophyll.getD i 0 = chlorophyllAt uc i :=
    fun i h => getD_range_map (chlorophyllAt uc) 0 91 i h
  refine ⟨?_, ?_, ?_, ?_, ?_, ?_, ?_⟩
  · rw [show (mockDepth uc up us).depths = (List.range 91).map (fun i => depthAt i) from rfl,
      getD_range_map _ _ _ _ (by norm_num)]
    norm_num [depthAt]
  · rw [show (mockDepth uc up us).depths = (List.range 91).map (fun i => depthAt i) from rfl,
      getD_range_map _ _ _ _ (by norm_num)]
    norm_num [depthAt]
  · rw [show (mockDepth uc up us).depths = (List.range 91).map (fun i => depthAt i) from rfl,
      getD_range_map _ _ _ _ (by norm_num)]
    norm_num [depthAt]
  · rw [hchl 90 (by norm_num), hchl 82 (by norm_num)]
    calc chlorophyllAt uc 90 ≤ 0.0986 := chlorophyllAt_surface uc (hc 90).2
    _ < 0.815 := by norm_num
    _ ≤ chlorophyllAt uc 82 := chlorophyllAt_peak uc (hc 82).1
  · rw [hchl 0 (by norm_num), hchl 82 (by norm_num)]
    calc chlorophyllAt uc 0 ≤ 0.0358 := chlorophyllAt_deep uc (hc 0).2
    _ < 0.815 := by norm_num
    _ ≤ chlorophyllAt uc 82 := chlorophyllAt_peak uc (hc 82).1
  · intro x hx
    rw [show (mockDepth uc up us).salinity = (List.range 91).map (salinityAt us) from rfl] at hx
    obtain ⟨i, -, rfl⟩ := List.mem_map.mp hx
    constructor
    · exact le_trans (by norm_num) (le_max_left _ _)
    · exact le_trans (max_le (by norm_num) (min_le_left _ _)) (by norm_num)
  · intro x hx
    rw [show (mockDepth uc up us).pH = (List.range 91).map (pHAt up) from rfl] at hx
    obtain ⟨i, -, rfl⟩ := List.mem_map.mp hx
    constructor
    · exact le_trans (by norm_num) (le_max_left _ _)
    · exact le_trans (max_le (by norm_num) (min_le_left _ _)) (by norm_num)

/-- C6 witness: concrete evaluation at the constant draw 1/2. -/
theorem claim_C6_witness :
    (mockDepth (fun _ => 1/2) (fun _ => 1/2) (fun _ => 1/2)).chlorophyll.getD 90 0
      < (mockDepth (fun _ => 1/2) (fun _ => 1/2) (fun _ => 1/2)).chlorophyll.getD 82 0 :=
  (claim_C6 (fun _ => 1/2) (fun _ => 1/2) (fun _ => 1/2)
    (fun _ => ⟨by norm_num, by norm_num⟩)).2.2.2.1

/-! ## utils/mock.ts : mockSST (lines 59-110)

The historical loop runs cursor = 2020-01 .. 2024-12 (60 iterations) with
monthIndex = i and getUTCMonth() = i % 12; the forecast loop runs i = 1..18
from 2024-12, giving month (11 + i) % 12 and trend index monthIndex + i - 1
= 59 + i.  The x labels `${year}-${month+1 padded}` are embedded as the
(year, month-number) pairs they are built from.  Values pass through
Number((...).toFixed(2)), embedded as round2. -/

/-- Number(x.toFixed(2)) for the magnitudes produced here: round half up to
hundredths. -/
noncomputable def round2 (x : ℝ) : ℝ := (⌊x * 100 + 1/2⌋ : ℤ) / 100

/-- the seasonal term: amplitude 6, phase −π/2, for 0-based month m. -/
noncomputable def sstSeasonal (m : ℕ) : ℝ :=
  6 * Real.sin (2 * Real.pi * m / 12 - Real.pi / 2)

/-- historical value at loop index i (baseline 20, trend 0.02/month, noise
(u i − 0.5)·0.6, rounded). -/
noncomputable def sstHistValue (u : ℕ → ℝ) (i : ℕ) : ℝ :=
  round2 (20 + sstSeasonal (i % 12) + 0.02 * i + (u i - 0.5) * 0.6)

/-- forecast value at list position j (loop index i = j + 1): same formula,
trend index 60 + i − 1, noise bound halved to (v i − 0.5)·0.3. -/
noncomputable def sstForecastValue (v : ℕ → ℝ) (j : ℕ) : ℝ :=
  round2 (20 + sstSeasonal ((11 + (j + 1)) % 12)
    + 0.02 * (60 + ((j : ℝ) + 1) - 1) + (v (j + 1) - 0.5) * 0.3)

structure SSTData where
  histX : List (ℕ × ℕ)
  histY : List ℝ
  fcX : List (ℕ × ℕ)
  fcY : List ℝ

noncomputable def mockSST (u v : ℕ → ℝ) : SSTData :=
  { histX := (List.range 60).map (fun i => (2020 + i / 12, i % 12 + 1))
  , histY := (List.range 60).map (sstHistValue u)
  , fcX := (List.range 18).map (fun j => (2024 + (11 + (j + 1)) / 12, (11 + (j + 1)) % 12 + 1))
  , fcY := (List.range 18).map (sstForecastValue v) }

theorem round2_le (x : ℝ) : round2 x ≤ x + 1/200 := by
  rw [round2, div_le_iff₀ (by norm_num : (0:ℝ) < 100)]
  have h := Int.floor_le (x * 100 + 1/2)
  linarith

theorem lt_round2 (x : ℝ) : x - 1/200 < round2 x := by
  rw [round2, lt_div_iff₀ (by norm_num : (0:ℝ) < 100)]
  have h := Int.lt_floor_add_one (x * 100 + 1/2)
  linarith

theorem sstSeasonal_eq (m : ℕ) :
    sstSeasonal m = -(6 * Real.cos (Real.pi * m / 6)) := by
  rw [sstSeasonal,
    show 2 * Real.pi * (m:ℝ) / 12 - Real.pi / 2 = Real.pi * m / 6 - Real.pi / 2 from by ring,
    Real.sin_sub_pi_div_two]
  ring

theorem sstSeasonal_six : sstSeasonal 6 = 6 := by
  rw [sstSeasonal_eq, show Real.pi * ((6:ℕ):ℝ) / 6 = Real.pi from by push_cast; ring,
    Real.cos_pi]
  ring

theorem sstSeasonal_cos_ge (m : ℕ) (hm : m < 12) (hne : m ≠ 6) :
    -(Real.sqrt 3 / 2) ≤ Real.cos (Real.pi * m / 6) := by
  have hpi := Real.pi_pos
  have hcsix : Real.cos (Real.pi / 6) = Real.sqrt 3 / 2 := Real.cos_pi_div_six
  rcases lt_or_gt_of_ne hne with hlt | hgt
  · have hm5 : (m:ℝ) ≤ 5 := by exact_mod_cast Nat.lt_succ_iff.mp hlt
    have hm0 : (0:ℝ) ≤ (m:ℝ) := Nat.cast_nonneg m
    have heq : Real.pi * m / 6 = Real.pi - Real.pi * (6 - (m:ℝ)) / 6 := by ring
    rw [heq, Real.cos_pi_sub]
    have hmono : Real.cos (Real.pi * (6 - (m:ℝ)) / 6) ≤ Real.cos (Real.pi / 6) := by
      apply Real.cos_le_cos_of_nonneg_of_le_pi
      · positivity
      · nlinarith
      · nlinarith
    rw [hcsix] at hmono
    linarith
  · have hm7 : (7:ℝ) ≤ (m:ℝ) := by exact_mod_cast hgt
    have hm11 : (m:ℝ) ≤ 11 := by exact_mod_cast Nat.lt_succ_iff.mp hm
    have heq : Real.pi * m / 6 = Real.pi * ((m:ℝ) - 6) / 6 + Real.pi := by ring
    rw [heq, Real.cos_add_pi]
    have hmono : Real.cos (Real.pi * ((m:ℝ) - 6) / 6) ≤ Real.cos (Real.pi / 6) := by
      apply Real.cos_le_cos_of_nonneg_of_le_pi
      · positivity
      · nlinarith
      · nlinarith
    rw [hcsix] at hmono
    linarith

theorem sstSeasonal_le (m : ℕ) (hm : m < 12) (hne : m ≠ 6) :
    sstSeasonal m ≤ 3 * Real.sqrt 3 := by
  rw [sstSeasonal_eq]
  have h := sstSeasonal_cos_ge m hm hne
  linarith

theorem sqrt3_lt : Real.sqrt 3 < 1.7321 := by
  nlinarith [Real.sq_sqrt (by norm_num : (0:ℝ) ≤ 3), Real.sqrt_nonneg 3]

theorem histY_getD (u v : ℕ → ℝ) (i : ℕ) (h : i < 60) :
    (mockSST u v).histY.getD i 0 = sstHistValue u i :=
  getD_range_map (sstHistValue u) 0 60 i h

theorem fcY_getD (u v : ℕ → ℝ) (j : ℕ) (h : j < 18) :
    (mockSST u v).fcY.getD j 0 = sstForecastValue v j :=
  getD_range_map (sstForecastValue v) 0 18 j h

/-- within each historical year, every month's value is strictly below
July's (0-based month index 6), for every admissible noise draw. -/
theorem sstHist_july_peak (u : ℕ → ℝ) (hu : ∀ i, 0 ≤ u i ∧ u i < 1)
    (y m : ℕ) (hy : y < 5) (hm : m < 12) (hne : m ≠ 6) :
    sstHistValue u (12*y + m) < sstHistValue u (12*y + 6) := by
  have hmod1 : (12*y + m) % 12 = m := by omega
  have hmod2 : (12*y + 6) % 12 = 6 := by omega
  rw [sstHistValue, sstHistValue, hmod1, hmod2, sstSeasonal_six]
  have hs := sstSeasonal_le m hm hne
  have hsq := sqrt3_lt
  have hn1 := hu (12*y + m)
  have hn2 := hu (12*y + 6)
  have hmr : (m:ℝ) ≤ 11 := by exact_mod_cast Nat.lt_succ_iff.mp hm
  have h1 := round2_le (20 + sstSeasonal m + 0.02 * ((12*y + m : ℕ):ℝ) + (u (12*y + m) - 0.5) * 0.6)
  have h2 := lt_round2 (20 + 6 + 0.02 * ((12*y + 6 : ℕ):ℝ) + (u (12*y + 6) - 0.5) * 0.6)
  push_cast at h1 h2 ⊢
  nlinarith [hn1.1, hn1.2, hn2.1, hn2.2]

/-- claim C7 exactly as stated (seasonal warm peak claimed in August,
0-based month index 7). -/
def ClaimC7Stated : Prop :=
  ∀ (u v : ℕ → ℝ), (∀ i, 0 ≤ u i ∧ u i < 1) → (∀ i, 0 ≤ v i ∧ v i < 1) →
    (mockSST u v).histY.length = 60 ∧
    (mockSST u v).histX = (List.range 60).map (fun i => (2020 + i / 12, i % 12 + 1)) ∧
    (∀ i, i < 60 → ∃ n : ℝ, |n| ≤ 0.3 ∧
      (mockSST u v).histY.getD i 0 = round2 (20 + sstSeasonal (i % 12) + 0.02 * i + n)) ∧
    (∀ y, y < 5 → ∀ m, m < 12 → m ≠ 7 →
      (mockSST u v).histY.getD (12*y + m) 0 < (mockSST u v).histY.getD (12*y + 7) 0) ∧
    (mockSST u v).fcY.length = 18 ∧
    (∀ j, j < 18 → ∃ n : ℝ, |n| ≤ 0.15 ∧
      (mockSST u v).fcY.getD j 0
        = round2 (20 + sstSeasonal ((11 + (j + 1)) % 12) + 0.02 * (60 + ((j:ℝ) + 1) - 1) + n)) ∧
    ((0.15 : ℝ) < 0.3)

/-- C7 counterexample: with the zero-noise draw, the July 2020 value
strictly exceeds the August 2020 value (the seasonal phase
6·sin(2πm/12 − π/2) peaks at month index 6, July, not August), refuting the
claimed August peak. -/
theorem claim_C7_counterexample : ¬ ClaimC7Stated := by
  intro h
  have hb : ∀ i : ℕ, (0:ℝ) ≤ (fun _ : ℕ => (1:ℝ)/2) i ∧ (fun _ : ℕ => (1:ℝ)/2) i < 1 :=
    fun _ => ⟨by norm_num, by norm_num⟩
  have haug := (h (fun _ => 1/2) (fun _ => 1/2) hb hb).2.2.2.1 0 (by norm_num) 6
    (by norm_num) (by norm_num)
  have hjul : (mockSST (fun _ => (1:ℝ)/2) (fun _ => (1:ℝ)/2)).histY.getD (12*0 + 7) 0
      < (mockSST (fun _ => (1:ℝ)/2) (fun _ => (1:ℝ)/2)).histY.getD (12*0 + 6) 0 := by
    rw [histY_getD _ _ _ (by norm_num), histY_getD _ _ _ (by norm_num)]
    exact sstHist_july_peak (fun _ => 1/2) hb 0 7 (by norm_num) (by norm_num) (by norm_num)
  exact lt_asymm haug hjul

/-- C7 amended: every output of mockSST is a 60-point monthly series for
2020-01..2024-12 of the form baseline(20) + 6·sin seasonal term +
0.02/month linear trend + noise bounded by ±0.3, rounded to two decimals,
with the warm peak of each year in July (0-based month index 6); plus an
18-month continuation with the same formula and the strictly smaller noise
bound ±0.15. -/
theorem claim_C7_amended (u v : ℕ → ℝ)
    (hu : ∀ i, 0 ≤ u i ∧ u i < 1) (hv : ∀ i, 0 ≤ v i ∧ v i < 1) :
    (mockSST u v).histY.length = 60 ∧
    (mockSST u v).histX = (List.range 60).map (fun i => (2020 + i / 12, i % 12 + 1)) ∧
    (∀ i, i < 60 → ∃ n : ℝ, |n| ≤ 0.3 ∧
      (mockSST u v).histY.getD i 0 = round2 (20 + sstSeasonal (i % 12) + 0.02 * i + n)) ∧
    (∀ y, y < 5 → ∀ m, m < 12 → m ≠ 6 →
      (mockSST u v).histY.getD (12*y + m) 0 < (mockSST u v).histY.getD (12*y + 6) 0) ∧
    (mockSST u v).fcY.length = 18 ∧
    (∀ j, j < 18 → ∃ n : ℝ, |n| ≤ 0.15 ∧
      (mockSST u v).fcY.getD j 0
        = round2 (20 + sstSeasonal ((11 + (j + 1)) % 12) + 0.02 * (60 + ((j:ℝ) + 1) - 1) + n)) ∧
    ((0.15 : ℝ) < 0.3) := by
  refine ⟨by simp [mockSST], rfl, ?_, ?_, by simp [mockSST], ?_, by norm_num⟩
  · intro i hi
    refine ⟨(u i - 0.5) * 0.6, ?_, ?_⟩
    · rw [abs_le]
      constructor
      · nlinarith [(hu i).1]
      · nlinarith [(hu i).2]
    · rw [histY_getD u v i hi]
      rfl
  · intro y hy m hm hne
    rw [histY_getD u v _ (by omega), histY_getD u v _ (by omega)]
    exact sstHist_july_peak u hu y m hy hm hne
  · intro j hj
    refine ⟨(v (j + 1) - 0.5) * 0.3, ?_, ?_⟩
    · rw [abs_le]
      constructor
      · nlinarith [(hv (j + 1)).1]
      · nlinarith [(hv (j + 1)).2]
    · rw [fcY_getD u v j hj]
      rfl

/-- C7 witness: concrete evaluation at the constant draw 1/2. -/
theorem claim_C7_witness :
    (mockSST (fun _ => (1:ℝ)/2) (fun _ => (1:ℝ)/2)).histY.length = 60 ∧
    (mockSST (fun _ => (1:ℝ)/2) (fun _ => (1:ℝ)/2)).fcY.length = 18 := by
  have h := claim_C7_amended (fun _ => 1/2) (fun _ => 1/2)
    (fun _ => ⟨by norm_num, by norm_num⟩) (fun _ => ⟨by norm_num, by norm_num⟩)
  exact ⟨h.1, h.2.2.2.2.1⟩

end MarineInsights
